import Mathlib

/-!
Verification of the awsranges range-matching engine (src/ranges.go).

The embedding covers the IPv4 fragment of Go's net parsing: `net.ParseIP`
and `net.ParseCIDR` are modelled faithfully for dotted-decimal IPv4 input
(the `dtoi` digit scanner, the four-field loop, the mask-length check and
the masked network base), while IPv6 textual forms fall outside the model
and are treated as unparseable.  An address is a `Nat` below `2 ^ 32`;
`IPNet` holds the masked base and the mask length, mirroring Go's
`net.IPNet` for IPv4 where `reflect.DeepEqual` of two masks is equivalent
to equality of mask lengths.

Go runtime panics reachable from the engine (indexing an empty string,
calling `Contains` on the nil `*net.IPNet` that `ParseCIDR` returns on a
malformed record) are modelled as `Except GoPanic` results.
-/

namespace AwsRanges

/-- One published address block, Go's `Prefix` struct: the CIDR string from
the document's `ip_prefix` field plus its region and service tags. -/
structure Prefix where
  IP : String
  Region : String
  Service : String
deriving Repr, DecidableEq, Inhabited

/-- Go's `ServicesResponse`: the region and services assigned to a query. -/
structure ServicesResponse where
  Region : String
  Services : List String
deriving Repr, DecidableEq

/-- A `*net.ParseError` returned by `net.ParseCIDR`, carrying the text that
failed to parse. -/
structure NetParseError where
  text : String
deriving Repr, DecidableEq

/-- A Go runtime panic reachable from the engine: indexing byte 0 of an
empty string, or dereferencing the nil `*net.IPNet` that `net.ParseCIDR`
returns for a malformed CIDR. -/
inductive GoPanic where
  | indexOutOfRange
  | nilDereference
deriving Repr, DecidableEq

/-- Go's `dtoi` decimal scanner (net/parse.go): consume leading digits into
`n`, returning `(n, characters consumed, ok)`; fails on no digit or when the
accumulator reaches `0xFFFFFF`. -/
def dtoiGo : List Char → Nat → Nat → Nat × Nat × Bool
  | [], n, i => if i = 0 then (0, 0, false) else (n, i, true)
  | c :: rest, n, i =>
    if c.isDigit then
      let m := n * 10 + (c.toNat - 48)
      if 0xFFFFFF ≤ m then (0xFFFFFF, i, false)
      else dtoiGo rest m (i + 1)
    else if i = 0 then (0, 0, false) else (n, i, true)

/-- Entry point of `dtoi` on a character list. -/
def dtoi (s : List Char) : Nat × Nat × Bool := dtoiGo s 0 0

/-- The four-field loop of Go's `parseIPv4`: each field is a decimal byte,
fields after the first are preceded by a dot, and the whole input must be
consumed.  Returns the field values in order. -/
def parseV4Fields : Nat → Bool → List Char → Option (List Nat)
  | 0, _, s => if s = [] then some [] else none
  | k + 1, first, s =>
    if s = [] then none
    else
      match (if first then some s else match s with
        | '.' :: r => some r
        | _ => none) with
      | none => none
      | some t =>
        match dtoi t with
        | (n, c, ok) =>
          if ok = false ∨ 0xFF < n then none
          else
            match parseV4Fields k false (t.drop c) with
            | none => none
            | some rest => some (n :: rest)

/-- Go's `parseIPv4` on a character list, packing the four bytes into one
natural number below `2 ^ 32`. -/
def parseIPv4 (s : List Char) : Option Nat :=
  match parseV4Fields 4 true s with
  | some [a, b, c, d] => some (((a * 256 + b) * 256 + c) * 256 + d)
  | _ => none

/-- The dispatch loop of Go's `net.ParseIP`: the first `.` or `:` decides
between IPv4 and IPv6 parsing. -/
def firstDotOrColon : List Char → Option Char
  | [] => none
  | c :: rest => if c = '.' ∨ c = ':' then some c else firstDotOrColon rest

/-- Go's `net.ParseIP`, IPv4 fragment: a string whose first separator is a
dot parses as dotted-decimal IPv4; IPv6 forms (first separator a colon) are
outside the model, and a string with neither separator parses to nil.
`none` models the nil `net.IP`. -/
def parseIP (s : String) : Option Nat :=
  match firstDotOrColon s.data with
  | some '.' => parseIPv4 s.data
  | _ => none

/-- Go's `net.IPNet` for IPv4: the masked base address (`ip.Mask(m)`) and
the CIDR mask length. -/
structure IPNet where
  base : Nat
  maskLen : Nat
deriving Repr, DecidableEq

/-- Go's `net.CIDRMask n 32` as a natural number: the 32-bit mask with `n`
leading one bits. -/
def maskOf (n : Nat) : Nat := 2 ^ 32 - 2 ^ (32 - n)

/-- Split at the first slash, Go's `byteIndex(s, '/')` plus the two
substrings `s[:i]` and `s[i+1:]`. -/
def splitSlash : List Char → Option (List Char × List Char)
  | [] => none
  | c :: rest =>
    if c = '/' then some ([], rest)
    else match splitSlash rest with
      | none => none
      | some (a, b) => some (c :: a, b)

/-- Go's `net.ParseCIDR`, IPv4 fragment: split at the first slash, parse the
address part as IPv4, scan the mask part with `dtoi` requiring all input
consumed and a length of at most 32.  Returns the unmasked address together
with the `IPNet` holding the masked base, exactly as Go returns
`(ip, &IPNet{IP: ip.Mask(m), Mask: m})`; `none` models the
`(nil, nil, err)` return. -/
def parseCIDR (s : String) : Option (Nat × IPNet) :=
  match splitSlash s.data with
  | none => none
  | some (addr, maskStr) =>
    match parseIPv4 addr with
    | none => none
    | some ip =>
      match dtoi maskStr with
      | (n, i, ok) =>
        if ok = true ∧ i = maskStr.length ∧ n ≤ 32 then
          some (ip, ⟨Nat.land ip (maskOf n), n⟩)
        else none

/-- Go's `(*net.IPNet).Contains` for a 4-byte network and a 4-byte address:
the address agrees with the network base on the masked bits. -/
def IPNet.contains (net : IPNet) (ip : Nat) : Bool :=
  Nat.land ip (maskOf net.maskLen) == Nat.land net.base (maskOf net.maskLen)

/-- `Contains` applied to a possibly-nil `net.IP`: Go returns false when the
address is nil (its length differs from the 4-byte network number). -/
def containsOpt (net : IPNet) : Option Nat → Bool
  | none => false
  | some ip => net.contains ip

/-- The record loop of `CheckAddress` (src/ranges.go lines 38-43): each
record's network is parsed with the error discarded, so a malformed record
leaves `network` nil and `network.Contains` panics with a nil dereference;
a well-formed record returns true as soon as it contains the address. -/
def checkAddressLoop : List Prefix → Option Nat → Except GoPanic Bool
  | [], _ => .ok false
  | p :: rest, aIP =>
    match parseCIDR p.IP with
    | none => .error .nilDereference
    | some (_, net) =>
      if containsOpt net aIP then .ok true else checkAddressLoop rest aIP

/-- Go's `(*Ranges).CheckAddress`: scan the catalog for a network containing
the parsed query address; false when the scan finds none. -/
def checkAddress (rs : List Prefix) (address : String) : Except GoPanic Bool :=
  checkAddressLoop rs (parseIP address)

/-- The record loop of `CheckCIDR` (src/ranges.go lines 51-65): skip a
record whose network string's first byte differs from the query's first
byte; return true on textual equality; otherwise parse both and return true
when the record's network contains the query's base address.  Indexing an
empty record string panics, and a malformed record that survives the fast
path leaves `prefixNetwork` nil so `Contains` panics. -/
def checkCIDRLoop : List Prefix → String → Char → Except GoPanic Bool
  | [], _, _ => .ok false
  | p :: rest, cidr, c0 =>
    match p.IP.data with
    | [] => .error .indexOutOfRange
    | d0 :: _ =>
      if c0 ≠ d0 then checkCIDRLoop rest cidr c0
      else if p.IP = cidr then .ok true
      else
        match parseCIDR p.IP with
        | none => .error .nilDereference
        | some (_, net) =>
          if containsOpt net ((parseCIDR cidr).map Prod.fst) then .ok true
          else checkCIDRLoop rest cidr c0

/-- Go's `(*Ranges).CheckCIDR`: read the query's first byte (panicking on an
empty query) and run the record loop. -/
def checkCIDR (rs : List Prefix) (cidr : String) : Except GoPanic Bool :=
  match cidr.data with
  | [] => .error .indexOutOfRange
  | c0 :: _ => checkCIDRLoop rs cidr c0

/-- Modelled from the spec: the `CheckCIDR` scan with the first-character
fast path removed (spec section 4.2 calls the fast path a pure performance
short-circuit), for comparison with `checkCIDR`.  Each record is checked for
textual equality and then for numeric containment of the query's base, with
no first-byte comparison and hence no string indexing. -/
def checkCIDRNoFastLoop : List Prefix → String → Except GoPanic Bool
  | [], _ => .ok false
  | p :: rest, cidr =>
    if p.IP = cidr then .ok true
    else
      match parseCIDR p.IP with
      | none => .error .nilDereference
      | some (_, net) =>
        if containsOpt net ((parseCIDR cidr).map Prod.fst) then .ok true
        else checkCIDRNoFastLoop rest cidr

/-- Modelled from the spec: `CheckCIDR` without the fast path. -/
def checkCIDRNoFast (rs : List Prefix) (cidr : String) : Except GoPanic Bool :=
  checkCIDRNoFastLoop rs cidr

/-- The mask guard of `CheckServices` (src/ranges.go lines 97-101): when the
query parsed as a CIDR, a record whose mask differs from the query's mask is
skipped.  In the IPv4 fragment `reflect.DeepEqual` of the two 4-byte masks
is equality of mask lengths. -/
def maskMismatch : Option Nat → IPNet → Bool
  | some m, net => net.maskLen != m
  | none, _ => false

/-- The record loop of `CheckServices` (src/ranges.go lines 92-106): a
malformed record's parse error is returned; a record passing the mask guard
matches when its string equals the query string or its network contains the
query address, in which case it becomes the current `answer` and its
service is appended. -/
def checkServicesLoop :
    List Prefix → String → Option Nat → Option Nat → Prefix → List String →
    Except NetParseError (Prefix × List String)
  | [], _, _, _, answer, services => .ok (answer, services)
  | p :: rest, address, aIP, qMask, answer, services =>
    match parseCIDR p.IP with
    | none => .error ⟨p.IP⟩
    | some (_, net) =>
      if maskMismatch qMask net then
        checkServicesLoop rest address aIP qMask answer services
      else if address = p.IP ∨ containsOpt net aIP = true then
        checkServicesLoop rest address aIP qMask p (services ++ [p.Service])
      else
        checkServicesLoop rest address aIP qMask answer services

/-- The query setup of `CheckServices` (src/ranges.go lines 83-90): a query
containing a slash is parsed as a CIDR, a parse failure being returned as
the error; otherwise `net.ParseIP` is called with no error check, a
malformed host address silently becoming the nil IP. -/
def querySetup (address : String) : Except NetParseError (Option Nat × Option Nat) :=
  if address.data.contains '/' then
    match parseCIDR address with
    | none => .error ⟨address⟩
    | some (ip, qnet) => .ok (some ip, some qnet.maskLen)
  else .ok (parseIP address, none)

/-- Go's `(*Ranges).CheckServices`: set up the query, run the record loop,
then build the response: a nonempty `answer.Service` yields the last match's
region with either the accumulated services (more than one) or the single
`answer.Service`; an empty `answer.Service` yields the zero response. -/
def checkServices (rs : List Prefix) (address : String) :
    Except NetParseError ServicesResponse :=
  match querySetup address with
  | .error e => .error e
  | .ok (aIP, qMask) =>
    match checkServicesLoop rs address aIP qMask ⟨"", "", ""⟩ [] with
    | .error e => .error e
    | .ok (answer, services) =>
      if answer.Service ≠ "" then
        if 1 < services.length then .ok ⟨answer.Region, services⟩
        else .ok ⟨answer.Region, [answer.Service]⟩
      else .ok ⟨"", []⟩

/-- Whether one record matches a query address in `CheckAddress`: its
network parses and contains the parsed query address. -/
def addrMatchIP (aIP : Option Nat) (p : Prefix) : Bool :=
  match parseCIDR p.IP with
  | none => false
  | some (_, net) => containsOpt net aIP

/-- `addrMatchIP` at the parse of a query string. -/
def addrMatch (address : String) (p : Prefix) : Bool :=
  addrMatchIP (parseIP address) p

/-- Whether one record matches a CIDR query in `CheckCIDR`: its first byte
equals the query's, and it is textually equal to the query or its parsed
network contains the query's base address. -/
def cidrMatch (cidr : String) (p : Prefix) : Bool :=
  match cidr.data, p.IP.data with
  | c0 :: _, d0 :: _ =>
    c0 == d0 && (p.IP == cidr ||
      (match parseCIDR p.IP with
       | none => false
       | some (_, net) => containsOpt net ((parseCIDR cidr).map Prod.fst)))
  | _, _ => false

/-- Whether one record matches in `CheckServices`: its network parses,
passes the mask guard, and the record is textually equal to the query or its
network contains the query address. -/
def svcMatch (address : String) (aIP : Option Nat) (qMask : Option Nat)
    (p : Prefix) : Bool :=
  match parseCIDR p.IP with
  | none => false
  | some (_, net) =>
    !maskMismatch qMask net && (address == p.IP || containsOpt net aIP)

/-- An error failing `New`: a transport failure on the single HTTP GET, or a
document that `json.Unmarshal` rejects. -/
inductive LoadError where
  | network (msg : String)
  | badDocument
deriving Repr, DecidableEq

/-- The world `New` runs against: the cache file's bytes when `fileExists`
holds and the file is readable, and what the single HTTP GET of the ranges
URL would return.  Bytes are naturals below 256. -/
structure World where
  cacheFile : Option (List Nat)
  remote : Except String (List Nat)
deriving Repr

/-- What one run of `New` produces: the load result, the world after it
(the cache file may have been written), and whether a network fetch
happened. -/
structure LoadOutcome where
  result : Except LoadError (List Prefix)
  world : World
  fetched : Bool
deriving Repr

/-- The parse step shared by the cache-hit and cache-miss paths of `New`:
`json.Unmarshal` into `Ranges` is external library code, taken as the
`unmarshal` parameter; a rejected document fails the load. -/
def parseDocument (unmarshal : List Nat → Option (List Prefix))
    (data : List Nat) : Except LoadError (List Prefix) :=
  match unmarshal data with
  | some ps => .ok ps
  | none => .error .badDocument

/-- Go's `New` (src/ranges.go lines 125-166) over the world model: when the
cache file exists its bytes are read and parsed with no fetch; otherwise the
document is fetched, its exact bytes written to the cache file, and the same
bytes parsed. -/
def NewGo (unmarshal : List Nat → Option (List Prefix)) (w : World) :
    LoadOutcome :=
  match w.cacheFile with
  | some data => ⟨parseDocument unmarshal data, w, false⟩
  | none =>
    match w.remote with
    | .error e => ⟨.error (.network e), w, true⟩
    | .ok data => ⟨parseDocument unmarshal data, ⟨some data, w.remote⟩, true⟩

end AwsRanges

namespace AwsRanges

/-- Helper: the CheckAddress record loop over parseable records returns, with no panic, whether some record's network contains the query address. -/
theorem checkAddressLoop_any (l : List Prefix) (aIP : Option Nat)
    (h : l.all (fun p => (parseCIDR p.IP).isSome) = true) :
    checkAddressLoop l aIP = .ok (l.any (addrMatchIP aIP)) := by
  induction l with
  | nil => rfl
  | cons p l ih =>
    simp only [List.all_cons, Bool.and_eq_true] at h
    obtain ⟨ip, net, hr⟩ : ∃ ip net, parseCIDR p.IP = some (ip, net) := by
      obtain ⟨r, hr⟩ := Option.isSome_iff_exists.mp h.1
      exact ⟨r.1, r.2, by simpa using hr⟩
    by_cases hc : containsOpt net aIP = true
    · simp [checkAddressLoop, hr, hc, List.any_cons, addrMatchIP]
    · simp only [Bool.not_eq_true] at hc
      simp [checkAddressLoop, hr, hc, List.any_cons, addrMatchIP, ih h.2]

/-- C1: for a catalog whose records all have well-formed CIDR network strings, CheckAddress returns true exactly for the query addresses contained in some record's network and false for the rest, and it returns false on the empty catalog. -/
theorem checkAddress_containment (rs : List Prefix) (address : String)
    (h : rs.all (fun p => (parseCIDR p.IP).isSome) = true) :
    checkAddress rs address = .ok (rs.any (addrMatch address)) ∧
    checkAddress [] address = .ok false :=
  ⟨checkAddressLoop_any rs (parseIP address) h, rfl⟩

/-- C1 witness: the spec's concrete scenario, a /22 record containing the queried address. -/
theorem checkAddress_containment_app :
    checkAddress [⟨"3.5.140.0/22", "ap-northeast-2", "EC2"⟩] "3.5.140.1" =
      .ok ([(⟨"3.5.140.0/22", "ap-northeast-2", "EC2"⟩ : Prefix)].any
        (addrMatch "3.5.140.1")) ∧
    checkAddress [] "3.5.140.1" = .ok false :=
  checkAddress_containment [⟨"3.5.140.0/22", "ap-northeast-2", "EC2"⟩]
    "3.5.140.1" (by decide)

/-- C4: contrary to the claim that a malformed record is silently skipped, CheckAddress discards the ParseCIDR error and calls Contains on the nil network, panicking with a nil dereference at the first malformed record. -/
theorem checkAddress_malformedRecordPanics :
    checkAddress [⟨"bad", "r", "s"⟩] "1.2.3.4" = .error .nilDereference := rfl

/-- Helper: the CheckCIDR record loop over nonempty, parseable records returns whether some record passes the first-byte fast path and then matches textually or by containment. -/
theorem checkCIDRLoop_any (l : List Prefix) (cidr : String) (c0 : Char)
    (tl : List Char) (hdata : cidr.data = c0 :: tl)
    (h : l.all (fun p => !p.IP.data.isEmpty && (parseCIDR p.IP).isSome) = true) :
    checkCIDRLoop l cidr c0 = .ok (l.any (cidrMatch cidr)) := by
  induction l with
  | nil => rfl
  | cons p l ih =>
    simp only [List.all_cons, Bool.and_eq_true] at h
    obtain ⟨⟨hne, hp⟩, h2⟩ := h
    obtain ⟨ip, net, hr⟩ : ∃ ip net, parseCIDR p.IP = some (ip, net) := by
      obtain ⟨r, hr⟩ := Option.isSome_iff_exists.mp hp
      exact ⟨r.1, r.2, by simpa using hr⟩
    match hip : p.IP.data with
    | [] => rw [hip] at hne; simp at hne
    | d0 :: ds =>
      simp only [checkCIDRLoop, hip]
      by_cases hc : c0 = d0
      · subst hc
        rw [if_neg fun hcc => hcc rfl]
        by_cases heq : p.IP = cidr
        · rw [if_pos heq]
          simp [List.any_cons, cidrMatch, hdata, hip, heq]
        · have hbeq : (p.IP == cidr) = false := by simpa using heq
          rw [if_neg heq]
          simp only [hr]
          by_cases hcon : containsOpt net ((parseCIDR cidr).map Prod.fst) = true
          · rw [if_pos hcon]
            simp [List.any_cons, cidrMatch, hdata, hip, hbeq, hr, hcon]
          · rw [if_neg hcon]
            have hcon2 : containsOpt net ((parseCIDR cidr).map Prod.fst) = false :=
              by simpa using hcon
            simp [List.any_cons, cidrMatch, hdata, hip, hbeq, hr, hcon2,
              ih h2]
      · rw [if_pos hc]
        have hbeq0 : (c0 == d0) = false := by simpa using hc
        simp [List.any_cons, cidrMatch, hdata, hip, hbeq0, ih h2]

/-- C5 (amended): for nonempty well-formed records and a nonempty well-formed CIDR query, CheckCIDR returns true exactly when some record sharing the query's first character is textually identical to the query or numerically contains the query's base address; in particular it returns true whenever the query is textually present. -/
theorem checkCIDR_matchCharacterization (rs : List Prefix) (cidr : String)
    (q : Nat × IPNet) (_hq : parseCIDR cidr = some q)
    (hne : cidr.data.isEmpty = false)
    (h : rs.all (fun p => !p.IP.data.isEmpty && (parseCIDR p.IP).isSome) = true) :
    checkCIDR rs cidr = .ok (rs.any (cidrMatch cidr)) ∧
    (∀ p ∈ rs, p.IP = cidr → checkCIDR rs cidr = .ok true) := by
  match hdata : cidr.data with
  | [] => rw [hdata] at hne; simp at hne
  | c0 :: tl =>
    have hmain : checkCIDR rs cidr = .ok (rs.any (cidrMatch cidr)) := by
      simpa [checkCIDR, hdata] using checkCIDRLoop_any rs cidr c0 tl hdata h
    refine ⟨hmain, fun p hp hpeq => ?_⟩
    rw [hmain]
    have hm : cidrMatch cidr p = true := by
      simp [cidrMatch, hpeq, hdata]
    have : rs.any (cidrMatch cidr) = true := List.any_eq_true.mpr ⟨p, hp, hm⟩
    rw [this]

/-- C5 witness: a textually present record is found. -/
theorem checkCIDR_matchCharacterization_app :
    checkCIDR [⟨"13.32.0.0/15", "GLOBAL", "AMAZON"⟩] "13.32.0.0/15" = .ok true :=
  (checkCIDR_matchCharacterization [⟨"13.32.0.0/15", "GLOBAL", "AMAZON"⟩]
      "13.32.0.0/15" (220200960, ⟨220200960, 15⟩) (by decide) (by decide)
      (by decide)).2
    ⟨"13.32.0.0/15", "GLOBAL", "AMAZON"⟩ (by simp) rfl

/-- C5 counterexample: the record 8.0.0.0/7 numerically contains 9.0.0.0, the base of the query 9.0.0.0/8, yet CheckCIDR returns false because the first characters differ, refuting the claimed equivalence with plain textual-or-containment matching. -/
theorem checkCIDR_fastPathMissesContainment :
    checkCIDR [⟨"8.0.0.0/7", "r", "s"⟩] "9.0.0.0/8" = .ok false ∧
    parseCIDR "8.0.0.0/7" = some (134217728, ⟨134217728, 7⟩) ∧
    parseCIDR "9.0.0.0/8" = some (150994944, ⟨150994944, 8⟩) ∧
    IPNet.contains ⟨134217728, 7⟩ 150994944 = true :=
  ⟨rfl, by decide, by decide, by decide⟩

/-- Helper: with every record's network string nonempty, the CheckCIDR record loop never raises an index-out-of-range panic. -/
theorem checkCIDRLoop_noIndexPanic (l : List Prefix) (cidr : String) (c0 : Char)
    (h : l.all (fun p => !p.IP.data.isEmpty) = true) :
    checkCIDRLoop l cidr c0 ≠ .error .indexOutOfRange := by
  induction l with
  | nil => simp [checkCIDRLoop]
  | cons p l ih =>
    simp only [List.all_cons, Bool.and_eq_true] at h
    obtain ⟨hne, h2⟩ := h
    match hip : p.IP.data with
    | [] => rw [hip] at hne; simp at hne
    | d0 :: ds =>
      simp only [checkCIDRLoop, hip]
      by_cases hc : c0 ≠ d0
      · rw [if_pos hc]
        exact ih h2
      · rw [if_neg hc]
        by_cases heq : p.IP = cidr
        · rw [if_pos heq]
          simp
        · rw [if_neg heq]
          cases hr : parseCIDR p.IP with
          | none => simp
          | some r =>
            obtain ⟨ip, net⟩ := r
            simp only
            by_cases hcon : containsOpt net ((parseCIDR cidr).map Prod.fst) = true
            · rw [if_pos hcon]
              simp
            · rw [if_neg hcon]
              exact ih h2

/-- C10: when the query string and every record's network string are nonempty, the byte-0 index accesses of CheckCIDR are in bounds on every iteration: no index-out-of-range panic is possible. -/
theorem checkCIDR_indexInBounds (rs : List Prefix) (cidr : String)
    (hne : cidr.data.isEmpty = false)
    (h : rs.all (fun p => !p.IP.data.isEmpty) = true) :
    checkCIDR rs cidr ≠ .error .indexOutOfRange := by
  match hdata : cidr.data with
  | [] => rw [hdata] at hne; simp at hne
  | c0 :: tl =>
    simpa [checkCIDR, hdata] using checkCIDRLoop_noIndexPanic rs cidr c0 h

/-- C10 witness at concrete nonempty strings. -/
theorem checkCIDR_indexInBounds_app :
    checkCIDR [⟨"3.5.140.0/22", "x", "y"⟩] "1.2.3.4/8" ≠
      .error .indexOutOfRange :=
  checkCIDR_indexInBounds [⟨"3.5.140.0/22", "x", "y"⟩] "1.2.3.4/8"
    (by decide) (by decide)

/-- Helper: over parseable records, a true answer from the fast-path loop is also produced by the loop without the fast path. -/
theorem checkCIDRLoop_fastSound (l : List Prefix) (cidr : String) (c0 : Char)
    (h : l.all (fun p => (parseCIDR p.IP).isSome) = true)
    (ht : checkCIDRLoop l cidr c0 = .ok true) :
    checkCIDRNoFastLoop l cidr = .ok true := by
  induction l with
  | nil => simp [checkCIDRLoop] at ht
  | cons p l ih =>
    simp only [List.all_cons, Bool.and_eq_true] at h
    obtain ⟨hp, h2⟩ := h
    obtain ⟨ip, net, hr⟩ : ∃ ip net, parseCIDR p.IP = some (ip, net) := by
      obtain ⟨r, hr⟩ := Option.isSome_iff_exists.mp hp
      exact ⟨r.1, r.2, by simpa using hr⟩
    match hip : p.IP.data with
    | [] => simp [checkCIDRLoop, hip] at ht
    | d0 :: ds =>
      by_cases hc : c0 ≠ d0
      · have ht2 : checkCIDRLoop l cidr c0 = .ok true := by
          simpa [checkCIDRLoop, hip, hc] using ht
        by_cases heq : p.IP = cidr
        · simp [checkCIDRNoFastLoop, heq]
        · by_cases hcon : containsOpt net ((parseCIDR cidr).map Prod.fst) = true
          · simp [checkCIDRNoFastLoop, heq, hr, hcon]
          · simp [checkCIDRNoFastLoop, heq, hr, hcon, ih h2 ht2]
      · by_cases heq : p.IP = cidr
        · simp [checkCIDRNoFastLoop, heq]
        · by_cases hcon : containsOpt net ((parseCIDR cidr).map Prod.fst) = true
          · simp [checkCIDRNoFastLoop, heq, hr, hcon]
          · have ht2 : checkCIDRLoop l cidr c0 = .ok true := by
              simpa [checkCIDRLoop, hip, hc, heq, hr, hcon] using ht
            simp [checkCIDRNoFastLoop, heq, hr, hcon, ih h2 ht2]

/-- C6 counterexample: on the record 4.0.0.0/7 and the query 5.0.0.0/8, CheckCIDR with the first-character fast path answers false while the same scan without the fast path answers true, so the fast path is not behavior-free. -/
theorem checkCIDR_fastPathChangesResult :
    checkCIDR [⟨"4.0.0.0/7", "r", "s"⟩] "5.0.0.0/8" = .ok false ∧
    checkCIDRNoFast [⟨"4.0.0.0/7", "r", "s"⟩] "5.0.0.0/8" = .ok true :=
  ⟨rfl, rfl⟩

/-- C6 (amended): the fast path never manufactures a match: over a catalog of well-formed records, whenever CheckCIDR with the fast path returns true, the same scan without the fast path also returns true (the converse fails, see the counterexample). -/
theorem checkCIDR_fastPathSound (rs : List Prefix) (cidr : String)
    (h : rs.all (fun p => (parseCIDR p.IP).isSome) = true)
    (ht : checkCIDR rs cidr = .ok true) :
    checkCIDRNoFast rs cidr = .ok true := by
  match hdata : cidr.data with
  | [] => simp [checkCIDR, hdata] at ht
  | c0 :: tl =>
    have ht2 : checkCIDRLoop rs cidr c0 = .ok true := by
      simpa [checkCIDR, hdata] using ht
    exact checkCIDRLoop_fastSound rs cidr c0 h ht2

/-- C6 witness: a textual match found with the fast path is also found without it. -/
theorem checkCIDR_fastPathSound_app :
    checkCIDRNoFast [⟨"8.0.0.0/7", "r", "s"⟩] "8.0.0.0/7" = .ok true :=
  checkCIDR_fastPathSound [⟨"8.0.0.0/7", "r", "s"⟩] "8.0.0.0/7"
    (by decide) rfl

/-- Helper: getLastD over a cons pushes the head into the default. -/
theorem listGetLastD_cons {α : Type _} (a d : α) (l : List α) :
    (a :: l).getLastD d = l.getLastD a := by
  cases l <;> simp [List.getLastD]

/-- Helper: the CheckServices record loop over parseable records returns the last matching record (the initial answer when none matches) and appends the matching records' services in scan order. -/
theorem checkServicesLoop_eq (l : List Prefix) (address : String)
    (aIP qMask : Option Nat) (answer : Prefix) (services : List String)
    (h : l.all (fun p => (parseCIDR p.IP).isSome) = true) :
    checkServicesLoop l address aIP qMask answer services =
      .ok ((l.filter (svcMatch address aIP qMask)).getLastD answer,
        services ++ (l.filter (svcMatch address aIP qMask)).map
          (fun p => p.Service)) := by
  induction l generalizing answer services with
  | nil => simp [checkServicesLoop]
  | cons p l ih =>
    simp only [List.all_cons, Bool.and_eq_true] at h
    obtain ⟨hp, h2⟩ := h
    obtain ⟨ip, net, hr⟩ : ∃ ip net, parseCIDR p.IP = some (ip, net) := by
      obtain ⟨r, hr⟩ := Option.isSome_iff_exists.mp hp
      exact ⟨r.1, r.2, by simpa using hr⟩
    simp only [checkServicesLoop, hr]
    by_cases hmm : maskMismatch qMask net = true
    · have hsm : svcMatch address aIP qMask p = false := by
        simp [svcMatch, hr, hmm]
      have hfil : (p :: l).filter (svcMatch address aIP qMask) =
          l.filter (svcMatch address aIP qMask) := by
        simp [List.filter_cons, hsm]
      rw [if_pos hmm, hfil]
      exact ih answer services h2
    · have hmmf : maskMismatch qMask net = false := by simpa using hmm
      rw [if_neg hmm]
      by_cases hm2 : address = p.IP ∨ containsOpt net aIP = true
      · have hsm : svcMatch address aIP qMask p = true := by
          rcases hm2 with h3 | h3
          · simp [svcMatch, hr, hmmf, h3]
          · simp [svcMatch, hr, hmmf, h3]
        have hfil : (p :: l).filter (svcMatch address aIP qMask) =
            p :: l.filter (svcMatch address aIP qMask) := by
          simp [List.filter_cons, hsm]
        rw [if_pos hm2, hfil, listGetLastD_cons,
          ih p (services ++ [p.Service]) h2]
        simp [List.append_assoc]
      · simp only [not_or] at hm2
        obtain ⟨h3, h4⟩ := hm2
        have h3b : (address == p.IP) = false := by simpa using h3
        have h4b : containsOpt net aIP = false := by simpa using h4
        have hsm : svcMatch address aIP qMask p = false := by
          simp [svcMatch, hr, h3b, h4b]
        have hfil : (p :: l).filter (svcMatch address aIP qMask) =
            l.filter (svcMatch address aIP qMask) := by
          simp [List.filter_cons, hsm]
        rw [if_neg (by simp [h3, h4b] :
          ¬(address = p.IP ∨ containsOpt net aIP = true)), hfil]
        exact ih answer services h2

/-- Helper: full characterization of CheckServices once the query is set up and every record parses, in terms of the filtered list of matching records. -/
theorem checkServices_eq (rs : List Prefix) (address : String)
    (aIP qMask : Option Nat)
    (hsetup : querySetup address = .ok (aIP, qMask))
    (h : rs.all (fun p => (parseCIDR p.IP).isSome) = true) :
    checkServices rs address =
      .ok (if ((rs.filter (svcMatch address aIP qMask)).getLastD
            ⟨"", "", ""⟩).Service ≠ "" then
          if 1 < (rs.filter (svcMatch address aIP qMask)).length then
            ⟨((rs.filter (svcMatch address aIP qMask)).getLastD
              ⟨"", "", ""⟩).Region,
             (rs.filter (svcMatch address aIP qMask)).map (fun p => p.Service)⟩
          else
            ⟨((rs.filter (svcMatch address aIP qMask)).getLastD
              ⟨"", "", ""⟩).Region,
             [((rs.filter (svcMatch address aIP qMask)).getLastD
              ⟨"", "", ""⟩).Service]⟩
        else ⟨"", []⟩) := by
  have hloop := checkServicesLoop_eq rs address aIP qMask ⟨"", "", ""⟩ [] h
  simp only [List.nil_append] at hloop
  simp only [checkServices, hsetup, hloop, List.length_map]
  split_ifs <;> rfl

/-- C2: on a CIDR query, a record whose mask length differs from the query's contributes nothing even if it numerically contains the query's base address: when every record's mask length differs from the query's, CheckServices returns the empty result. -/
theorem checkServices_maskGuard (rs : List Prefix) (address : String)
    (ip : Nat) (qnet : IPNet)
    (hslash : address.data.contains '/' = true)
    (hq : parseCIDR address = some (ip, qnet))
    (h : rs.all (fun p => (parseCIDR p.IP).isSome) = true)
    (hmask : rs.all (fun p =>
      ((parseCIDR p.IP).map (fun r => r.2.maskLen)) != some qnet.maskLen) =
      true) :
    checkServices rs address = .ok ⟨"", []⟩ := by
  have hmem : '/' ∈ address.data := by simpa using hslash
  have hsetup : querySetup address = .ok (some ip, some qnet.maskLen) := by
    simp [querySetup, hmem, hq]
  have hfil : rs.filter (svcMatch address (some ip) (some qnet.maskLen)) =
      [] := by
    rw [List.filter_eq_nil_iff]
    intro p hp
    simp only [List.all_eq_true] at h hmask
    obtain ⟨r, hr⟩ := Option.isSome_iff_exists.mp (h p hp)
    obtain ⟨ip2, net⟩ := r
    have hm := hmask p hp
    rw [hr] at hm
    simp only [Option.map_some', bne_iff_ne, ne_eq, Option.some.injEq] at hm
    simp [svcMatch, hr, maskMismatch, hm]
  rw [checkServices_eq rs address _ _ hsetup h, hfil]
  simp [List.getLastD]

/-- C2 witness: a /16 query against a containing /15 record yields the empty result. -/
theorem checkServices_maskGuard_app :
    checkServices [⟨"13.32.0.0/15", "GLOBAL", "CLOUDFRONT"⟩] "13.32.0.0/16" =
      .ok ⟨"", []⟩ :=
  checkServices_maskGuard [⟨"13.32.0.0/15", "GLOBAL", "CLOUDFRONT"⟩]
    "13.32.0.0/16" 220200960 ⟨220200960, 16⟩ (by decide) (by decide)
    (by decide) (by decide)

/-- Helper: a record whose network string fails to parse makes the CheckServices record loop return a parse error. -/
theorem checkServicesLoop_badRecord (l : List Prefix) (address : String)
    (aIP qMask : Option Nat) (answer : Prefix) (services : List String)
    (hbad : ∃ p ∈ l, parseCIDR p.IP = none) :
    ∃ e, checkServicesLoop l address aIP qMask answer services = .error e := by
  induction l generalizing answer services with
  | nil => simp at hbad
  | cons p l ih =>
    cases hr : parseCIDR p.IP with
    | none => exact ⟨⟨p.IP⟩, by simp [checkServicesLoop, hr]⟩
    | some r =>
      obtain ⟨q, hq, hqn⟩ := hbad
      rcases List.mem_cons.mp hq with rfl | hmem
      · rw [hr] at hqn; cases hqn
      · obtain ⟨ip, net⟩ := r
        simp only [checkServicesLoop, hr]
        by_cases hmm : maskMismatch qMask net = true
        · rw [if_pos hmm]
          exact ih answer services ⟨q, hmem, hqn⟩
        · rw [if_neg hmm]
          by_cases hm2 : address = p.IP ∨ containsOpt net aIP = true
          · rw [if_pos hm2]
            exact ih p (services ++ [p.Service]) ⟨q, hmem, hqn⟩
          · rw [if_neg hm2]
            exact ih answer services ⟨q, hmem, hqn⟩

/-- C3 (amended): CheckServices fails with a parse error when the query contains a slash and is not a well-formed CIDR, and when any catalog record's network string fails to parse during the scan; a malformed host-address query is not detected, because ParseIP's nil result is never checked. -/
theorem checkServices_parseFailures (rs : List Prefix) (address : String) :
    (address.data.contains '/' = true → parseCIDR address = none →
      checkServices rs address = .error ⟨address⟩) ∧
    ((∃ p ∈ rs, parseCIDR p.IP = none) →
      ∃ e, checkServices rs address = .error e) := by
  constructor
  · intro hslash hq
    have hmem : '/' ∈ address.data := by simpa using hslash
    simp [checkServices, querySetup, hmem, hq]
  · intro hbad
    cases hs : querySetup address with
    | error e => exact ⟨e, by simp [checkServices, hs]⟩
    | ok v =>
      obtain ⟨aIP, qMask⟩ := v
      obtain ⟨e, he⟩ :=
        checkServicesLoop_badRecord rs address aIP qMask ⟨"", "", ""⟩ [] hbad
      exact ⟨e, by simp [checkServices, hs, he]⟩

/-- C3 witness: a malformed CIDR query and a malformed catalog record each produce a parse error. -/
theorem checkServices_parseFailures_app :
    checkServices [] "3.5.140.0/33" = .error ⟨"3.5.140.0/33"⟩ ∧
    ∃ e, checkServices [⟨"bad", "", ""⟩] "1.2.3.4" = .error e :=
  ⟨(checkServices_parseFailures [] "3.5.140.0/33").1 (by decide) (by decide),
   (checkServices_parseFailures [⟨"bad", "", ""⟩] "1.2.3.4").2
     ⟨⟨"bad", "", ""⟩, by simp, by decide⟩⟩

/-- C3 counterexample: the malformed host-address query not-an-ip does not fail with a parse error; CheckServices returns the empty result with no error, both on the empty catalog and on a well-formed one. -/
theorem checkServices_hostQueryNoError :
    checkServices [] "not-an-ip" = .ok ⟨"", []⟩ ∧
    checkServices [⟨"3.5.140.0/22", "ap-northeast-2", "EC2"⟩] "not-an-ip" =
      .ok ⟨"", []⟩ :=
  ⟨rfl, rfl⟩

/-- Helper: the response-building step of CheckServices collapses to the last match's region and the scan-order services when the last match's service is nonempty. -/
theorem servicesPostShape (ms : List Prefix)
    (hne : ms ≠ [])
    (hlast : (ms.getLastD ⟨"", "", ""⟩).Service ≠ "") :
    (if (ms.getLastD ⟨"", "", ""⟩).Service ≠ "" then
      if 1 < ms.length then
        (⟨(ms.getLastD ⟨"", "", ""⟩).Region,
          ms.map (fun p => p.Service)⟩ : ServicesResponse)
      else ⟨(ms.getLastD ⟨"", "", ""⟩).Region,
        [(ms.getLastD ⟨"", "", ""⟩).Service]⟩
    else ⟨"", []⟩) =
      ⟨(ms.getLastD ⟨"", "", ""⟩).Region, ms.map (fun p => p.Service)⟩ := by
  rw [if_pos hlast]
  match ms, hne with
  | [m], _ => simp [listGetLastD_cons]
  | m1 :: m2 :: t, _ =>
    rw [if_pos (by simp : 1 < (m1 :: m2 :: t).length)]

/-- C7 (amended): when some record matches and the last matching record's service string is nonempty, CheckServices scans the whole catalog and returns the region of the last matching record in catalog order together with the matched services in scan order. -/
theorem checkServices_lastMatchRegion (rs : List Prefix) (address : String)
    (aIP qMask : Option Nat)
    (hsetup : querySetup address = .ok (aIP, qMask))
    (h : rs.all (fun p => (parseCIDR p.IP).isSome) = true)
    (hne : rs.filter (svcMatch address aIP qMask) ≠ [])
    (hlast : ((rs.filter (svcMatch address aIP qMask)).getLastD
      ⟨"", "", ""⟩).Service ≠ "") :
    checkServices rs address =
      .ok ⟨((rs.filter (svcMatch address aIP qMask)).getLastD
          ⟨"", "", ""⟩).Region,
        (rs.filter (svcMatch address aIP qMask)).map (fun p => p.Service)⟩ := by
  rw [checkServices_eq rs address aIP qMask hsetup h,
    servicesPostShape _ hne hlast]

/-- C7 witness: the spec's two-record scenario returns the shared region and both services in scan order. -/
theorem checkServices_lastMatchRegion_app :
    checkServices [⟨"13.32.0.0/15", "GLOBAL", "CLOUDFRONT"⟩,
      ⟨"13.32.0.0/15", "GLOBAL", "AMAZON"⟩] "13.32.1.1" =
      .ok ⟨"GLOBAL", ["CLOUDFRONT", "AMAZON"]⟩ := by
  rw [checkServices_lastMatchRegion
    [⟨"13.32.0.0/15", "GLOBAL", "CLOUDFRONT"⟩,
      ⟨"13.32.0.0/15", "GLOBAL", "AMAZON"⟩] "13.32.1.1"
    (some 220201217) none rfl (by decide) (by decide) (by decide)]
  rfl

/-- C7 counterexample: a record matches the query but its service string is empty, and CheckServices returns the empty response instead of the last match's region with its accumulated service. -/
theorem checkServices_emptyLastServiceDiscards :
    checkServices [⟨"10.0.0.0/8", "r", ""⟩] "10.0.0.1" = .ok ⟨"", []⟩ ∧
    svcMatch "10.0.0.1" (parseIP "10.0.0.1") none ⟨"10.0.0.0/8", "r", ""⟩ =
      true ∧
    querySetup "10.0.0.1" = .ok (parseIP "10.0.0.1", none) ∧
    ServicesResponse.mk "" [] ≠ ServicesResponse.mk "r" [""] :=
  ⟨rfl, by decide, rfl, by decide⟩

/-- C9: when at least one record matches but the last matching record's service string is empty, CheckServices returns the empty result, discarding the services accumulated from earlier matches. -/
theorem checkServices_lastServiceEmpty (rs : List Prefix) (address : String)
    (aIP qMask : Option Nat)
    (hsetup : querySetup address = .ok (aIP, qMask))
    (h : rs.all (fun p => (parseCIDR p.IP).isSome) = true)
    (_hne : rs.filter (svcMatch address aIP qMask) ≠ [])
    (hlast : ((rs.filter (svcMatch address aIP qMask)).getLastD
      ⟨"", "", ""⟩).Service = "") :
    checkServices rs address = .ok ⟨"", []⟩ := by
  rw [checkServices_eq rs address aIP qMask hsetup h,
    if_neg (not_ne_iff.mpr hlast)]

/-- C9 witness: an earlier match with service EC2 is discarded because the last match's service is empty. -/
theorem checkServices_lastServiceEmpty_app :
    checkServices [⟨"10.0.0.0/8", "us-east-1", "EC2"⟩,
      ⟨"10.0.0.0/8", "us-east-1", ""⟩] "10.0.0.1" = .ok ⟨"", []⟩ :=
  checkServices_lastServiceEmpty
    [⟨"10.0.0.0/8", "us-east-1", "EC2"⟩, ⟨"10.0.0.0/8", "us-east-1", ""⟩]
    "10.0.0.1" (some 167772161) none rfl (by decide) (by decide) (by decide)

/-- C8: a load with no pre-existing cache fetches the document bytes and writes exactly those bytes to the cache file, and a subsequent load finding the cache present performs no fetch and produces the same result as parsing those bytes directly, whatever the network would now return. -/
theorem New_cacheRoundTrip (unmarshal : List Nat → Option (List Prefix))
    (w : World) (B : List Nat) (r : Except String (List Nat))
    (hc : w.cacheFile = none) (hr : w.remote = .ok B) :
    (NewGo unmarshal w).fetched = true ∧
    (NewGo unmarshal w).world.cacheFile = some B ∧
    (NewGo unmarshal ⟨some B, r⟩).fetched = false ∧
    (NewGo unmarshal ⟨some B, r⟩).result = parseDocument unmarshal B ∧
    (NewGo unmarshal ⟨some B, r⟩).result = (NewGo unmarshal w).result := by
  simp [NewGo, hc, hr]

/-- C8 witness at a concrete world and unmarshal function. -/
theorem New_cacheRoundTrip_app :
    (NewGo (fun _ => some []) ⟨none, .ok [1, 2, 3]⟩).fetched = true ∧
    (NewGo (fun _ => some []) ⟨none, .ok [1, 2, 3]⟩).world.cacheFile =
      some [1, 2, 3] ∧
    (NewGo (fun _ => some []) ⟨some [1, 2, 3], .error "offline"⟩).fetched =
      false ∧
    (NewGo (fun _ => some []) ⟨some [1, 2, 3], .error "offline"⟩).result =
      parseDocument (fun _ => some []) [1, 2, 3] ∧
    (NewGo (fun _ => some []) ⟨some [1, 2, 3], .error "offline"⟩).result =
      (NewGo (fun _ => some []) ⟨none, .ok [1, 2, 3]⟩).result :=
  New_cacheRoundTrip (fun _ => some []) ⟨none, .ok [1, 2, 3]⟩ [1, 2, 3]
    (.error "offline") rfl rfl

end AwsRanges
